import Mathlib

/-!
Shallow embedding of the ReviewService reviewer-assignment core
(internal/service/pullrequest.go, internal/service/stats.go,
internal/repository/postgres/*.go, internal/domain/*.go).

The persistent store (PostgreSQL tables users / pull_requests /
pr_reviewers) is modelled as a `Store` value threaded through every
operation. Random choices (`rand.Intn`, `rand.IntN`, `rand.Shuffle`)
are modelled by explicit oracle parameters. Transient store failures
on the bulk-deactivation per-PR path are modelled by a `Faults`
oracle; `noFaults` is the fault-free run.
-/

/-- domain.User (internal/domain, model.go part). -/
structure User where
  userID : String
  username : String
  teamName : String
  isActive : Bool
deriving Repr, DecidableEq

/-- domain.PRStatusOpen. -/
def PRStatusOpen : String := "OPEN"

/-- domain.PRStatusMerged. -/
def PRStatusMerged : String := "MERGED"

/-- domain.PullRequest. Timestamps are ticks of an abstract clock. -/
structure PullRequest where
  pullRequestID : String
  pullRequestName : String
  authorID : String
  status : String
  assignedReviewers : List String
  createdAt : Option Nat := none
  mergedAt : Option Nat := none
deriving Repr, DecidableEq

/-- domain.PullRequestShort. -/
structure PullRequestShort where
  pullRequestID : String
  pullRequestName : String
  authorID : String
  status : String
deriving Repr, DecidableEq

/-- domain.UserPullRequests. -/
structure UserPullRequests where
  userID : String
  pullRequests : List PullRequestShort
deriving Repr, DecidableEq

/-- The domain error taxonomy of internal/domain/errors.go. -/
inductive DomainErr where
  | teamExists
  | prExists
  | prMerged
  | notAssigned
  | noCandidate
  | notFound
  | invalidInput
deriving Repr, DecidableEq

/-- The backing store: the users table, the pull_requests table
(with their pr_reviewers rows inlined as `assignedReviewers`), and the
current clock value used for timestamps. -/
structure Store where
  users : List User
  prs : List PullRequest
  now : Nat
deriving Repr, DecidableEq

deriving instance DecidableEq for Except

/-- UserRepository.Get: SELECT by user_id, domain.ErrNotFound when absent. -/
def userGet (st : Store) (userID : String) : Except DomainErr User :=
  match st.users.find? (fun u => u.userID == userID) with
  | some u => .ok u
  | none => .error .notFound

/-- UserRepository.GetByTeam: all users of a team, active and inactive. -/
def getByTeam (st : Store) (teamName : String) : List User :=
  st.users.filter (fun u => u.teamName == teamName)

/-- UserRepository.BulkDeactivateByTeam: UPDATE ... SET is_active=false
WHERE team_name=$1 AND is_active=true RETURNING user_id. -/
def bulkDeactivateByTeam (st : Store) (teamName : String) : Store × List String :=
  ({ st with users := st.users.map (fun u =>
      if u.teamName == teamName && u.isActive then { u with isActive := false } else u) },
   ((st.users.filter (fun u => u.teamName == teamName && u.isActive)).map User.userID))

/-- PullRequestRepository.Exists. -/
def prExistsIn (st : Store) (prID : String) : Bool :=
  st.prs.any (fun p => p.pullRequestID == prID)

/-- PullRequestRepository.Get: SELECT by pull_request_id plus its
pr_reviewers rows; domain.ErrNotFound when absent. -/
def prGet (st : Store) (prID : String) : Except DomainErr PullRequest :=
  match st.prs.find? (fun p => p.pullRequestID == prID) with
  | some p => .ok p
  | none => .error .notFound

/-- Replace the stored row of `pr.pullRequestID` by `pr` (an UPDATE). -/
def updatePR (st : Store) (pr : PullRequest) : Store :=
  { st with prs := st.prs.map (fun p =>
      if p.pullRequestID == pr.pullRequestID then pr else p) }

/-- PullRequestRepository.Create: INSERT, unique violation gives ErrPRExists. -/
def prCreate (st : Store) (pr : PullRequest) : Except DomainErr Store :=
  if prExistsIn st pr.pullRequestID then .error .prExists
  else .ok { st with prs := st.prs ++ [pr] }

/-- PullRequestRepository.Merge: get the PR; if already MERGED return it
unchanged (idempotence), else set status MERGED and merged_at to now. -/
def prMerge (st : Store) (prID : String) : Except DomainErr (Store × PullRequest) :=
  match prGet st prID with
  | .error e => .error e
  | .ok pr =>
    if pr.status == PRStatusMerged then .ok (st, pr)
    else
      let merged := { pr with status := PRStatusMerged, mergedAt := some st.now }
      .ok (updatePR st merged, merged)

/-- PullRequestRepository.GetReviewers: pr_reviewers rows of one PR
(empty when the PR does not exist — a plain SELECT). -/
def getReviewers (st : Store) (prID : String) : List String :=
  match st.prs.find? (fun p => p.pullRequestID == prID) with
  | some pr => pr.assignedReviewers
  | none => []

/-- PullRequestRepository.AssignReviewers: INSERT each reviewer row,
skipping duplicates (unique-violation rows are skipped). -/
def assignReviewers (st : Store) (prID : String) (reviewerIDs : List String) : Store :=
  match st.prs.find? (fun p => p.pullRequestID == prID) with
  | none => st
  | some pr =>
    let inserted := reviewerIDs.foldl
      (fun acc rid => if acc.contains rid then acc else acc ++ [rid])
      pr.assignedReviewers
    updatePR st { pr with assignedReviewers := inserted }

/-- PullRequestRepository.RemoveReviewer: DELETE the (PR, user) row;
zero rows affected gives domain.ErrNotAssigned. The store keeps (PR,
user) pairs unique, so erasing the first occurrence is the DELETE. -/
def removeReviewer (st : Store) (prID userID : String) : Except DomainErr Store :=
  match st.prs.find? (fun p => p.pullRequestID == prID) with
  | none => .error .notAssigned
  | some pr =>
    if pr.assignedReviewers.contains userID then
      .ok (updatePR st { pr with assignedReviewers := pr.assignedReviewers.erase userID })
    else .error .notAssigned

/-- PullRequestRepository.ReassignReviewer: one transaction deleting the
old reviewer row (zero rows affected gives ErrNotAssigned) and inserting
the new reviewer row. -/
def reassignReviewerRepo (st : Store) (prID oldID newID : String) : Except DomainErr Store :=
  match st.prs.find? (fun p => p.pullRequestID == prID) with
  | none => .error .notAssigned
  | some pr =>
    if pr.assignedReviewers.contains oldID then
      .ok (updatePR st { pr with assignedReviewers :=
        pr.assignedReviewers.erase oldID ++ [newID] })
    else .error .notAssigned

/-- PullRequestRepository.GetOpenByReviewer: ids of OPEN PRs having the
user among their reviewers. -/
def getOpenByReviewer (st : Store) (userID : String) : List String :=
  (st.prs.filter (fun p =>
    p.status == PRStatusOpen && p.assignedReviewers.contains userID)).map
      PullRequest.pullRequestID

/-- PullRequestRepository.GetByReviewer: short records of all PRs having
the user among their reviewers. -/
def getByReviewer (st : Store) (userID : String) : List PullRequestShort :=
  (st.prs.filter (fun p => p.assignedReviewers.contains userID)).map
    (fun p => ⟨p.pullRequestID, p.pullRequestName, p.authorID, p.status⟩)

/-! ## Service layer: PullRequestService (internal/service/pullrequest.go) -/

/-- One swap of rand.Shuffle's Fisher-Yates loop: exchange positions
`i` and `j` (out-of-range indices leave the list unchanged). -/
def swapAt (l : List String) (i j : Nat) : List String :=
  match l.get? i, l.get? j with
  | some a, some b => (l.set i b).set j a
  | _, _ => l

/-- rand.Shuffle's Fisher-Yates loop, `for i := n-1; i > 0; i--`,
with the random draw at each step supplied by the oracle `rnd`:
`fisherYatesFrom rnd i l` performs the swaps for indices i, i-1, ..., 1,
each with j = rnd i % (i+1). -/
def fisherYatesFrom (rnd : Nat → Nat) : Nat → List String → List String
  | 0, l => l
  | i + 1, l => fisherYatesFrom rnd i (swapAt l (i + 1) (rnd (i + 1) % (i + 2)))

/-- rand.Shuffle over a list, randomness via the oracle `rnd`. -/
def shuffle (rnd : Nat → Nat) (l : List String) : List String :=
  fisherYatesFrom rnd (l.length - 1) l

/-- PullRequestService.selectReviewers: filter active non-author team
members; return all of them when at most maxCount remain, otherwise
shuffle and take the first maxCount. -/
def selectReviewers (teamMembers : List User) (authorID : String) (maxCount : Nat)
    (rnd : Nat → Nat) : List String :=
  let candidates := (teamMembers.filter
    (fun m => m.isActive && m.userID != authorID)).map User.userID
  if candidates.length ≤ maxCount then candidates
  else (shuffle rnd candidates).take maxCount

/-- PullRequestService.CreatePullRequest: duplicate-id check, author
lookup, INSERT of the OPEN PR with empty reviewer set, then selection of
up to 2 reviewers from the author's team and their assignment (skipped,
not an error, when the selection is empty). -/
def createPullRequest (st : Store) (prID prName authorID : String) (rnd : Nat → Nat) :
    Except DomainErr PullRequest × Store :=
  if prExistsIn st prID then (.error .prExists, st)
  else
    match userGet st authorID with
    | .error e => (.error e, st)
    | .ok author =>
      let pr : PullRequest :=
        { pullRequestID := prID, pullRequestName := prName, authorID := authorID,
          status := PRStatusOpen, assignedReviewers := [], createdAt := some st.now }
      match prCreate st pr with
      | .error e => (.error e, st)
      | .ok st1 =>
        let teamMembers := getByTeam st1 author.teamName
        let reviewers := selectReviewers teamMembers authorID 2 rnd
        if reviewers.isEmpty then (.ok pr, st1)
        else (.ok { pr with assignedReviewers := reviewers },
              assignReviewers st1 prID reviewers)

/-- PullRequestService.MergePullRequest: delegates to the repository's
idempotent Merge. -/
def mergePullRequest (st : Store) (prID : String) : Except DomainErr PullRequest × Store :=
  match prMerge st prID with
  | .error e => (.error e, st)
  | .ok (st1, pr) => (.ok pr, st1)

/-- The in-place update loop at the end of ReassignReviewer: replace the
first occurrence of `oldID` in the reviewer list by `newID`. -/
def replaceFirst : List String → String → String → List String
  | [], _, _ => []
  | x :: xs, oldID, newID =>
    if x == oldID then newID :: xs else x :: replaceFirst xs oldID newID

/-- PullRequestService.ReassignReviewer: get the PR (NotFound), reject a
MERGED PR (PRMerged), require the old reviewer to be assigned
(NotAssigned), filter the OLD REVIEWER's team for active members outside
{author} ∪ current reviewers, fail with NoCandidate when none remain,
else pick one at random (oracle index `pick`), swap in the store and in
the returned PR. -/
def reassignReviewer (st : Store) (prID oldReviewerID : String) (pick : Nat) :
    Except DomainErr (PullRequest × String) × Store :=
  match prGet st prID with
  | .error e => (.error e, st)
  | .ok pr =>
    if pr.status == PRStatusMerged then (.error .prMerged, st)
    else if !(pr.assignedReviewers.contains oldReviewerID) then (.error .notAssigned, st)
    else
      match userGet st oldReviewerID with
      | .error e => (.error e, st)
      | .ok oldReviewer =>
        let teamMembers := getByTeam st oldReviewer.teamName
        let excludedIDs := pr.authorID :: pr.assignedReviewers
        let candidates := (teamMembers.filter
          (fun m => m.isActive && !(excludedIDs.contains m.userID))).map User.userID
        if h : candidates.length = 0 then (.error .noCandidate, st)
        else
          let newReviewerID := candidates.get
            ⟨pick % candidates.length, Nat.mod_lt _ (Nat.pos_of_ne_zero h)⟩
          match reassignReviewerRepo st prID oldReviewerID newReviewerID with
          | .error e => (.error e, st)
          | .ok st1 =>
            (.ok ({ pr with assignedReviewers :=
                      replaceFirst pr.assignedReviewers oldReviewerID newReviewerID },
                  newReviewerID), st1)

/-- PullRequestService.GetUserReviews: a missing user is not an error —
the requested id is returned with an empty PR list. -/
def getUserReviews (st : Store) (userID : String) : Except DomainErr UserPullRequests × Store :=
  match userGet st userID with
  | .error e =>
    if e = DomainErr.notFound then (.ok { userID := userID, pullRequests := [] }, st)
    else (.error e, st)
  | .ok _ => (.ok { userID := userID, pullRequests := getByReviewer st userID }, st)

/-! ## Service layer: StatsService.BulkDeactivateTeam (internal/service/stats.go) -/

/-- stats.go filterCandidates: active team members outside
{author} ∪ current reviewers. -/
def filterCandidates (teamMembers : List User) (authorID : String)
    (currentReviewers : List String) : List String :=
  let excluded := authorID :: currentReviewers
  (teamMembers.filter (fun m => m.isActive && !(excluded.contains m.userID))).map User.userID

/-- stats.go selectRandomCandidate, randomness via the oracle index. -/
def selectRandomCandidate (candidates : List String) (pick : Nat) : String :=
  if h : candidates.length = 0 then ""
  else candidates.get ⟨pick % candidates.length, Nat.mod_lt _ (Nat.pos_of_ne_zero h)⟩

/-- Fault oracle for the transient store failures the bulk-deactivation
loop tolerates; each component tells whether the corresponding repository
call fails for the given key. -/
structure Faults where
  failGetOpenPRs : String → Bool
  failGetPR : String → Bool
  failGetReviewers : String → Bool
  failGetAuthor : String → Bool
  failGetTeamMembers : String → Bool
  failRemoveReviewer : String → Bool
  failReassign : String → Bool

/-- The fault-free run. -/
def noFaults : Faults :=
  ⟨fun _ => false, fun _ => false, fun _ => false, fun _ => false,
   fun _ => false, fun _ => false, fun _ => false⟩

/-- Accumulator of the bulk-deactivation loop: the threaded store and the
totalReassigned / reassignErrors counters. -/
structure BulkAcc where
  st : Store
  reassigned : Nat
  errors : Nat
deriving Repr, DecidableEq

/-- The body of BulkDeactivateTeam's inner loop for one (deactivated
user, open PR) pair: fetch the PR, its reviewers, its author and the
author's team; filter candidates; when none remain remove the reviewer
without replacement (counted as a success), else swap in a random
candidate. Every failure increments the error counter and the loop
moves on. -/
def processPR (f : Faults) (rnd : String → String → Nat) (userID : String)
    (acc : BulkAcc) (prID : String) : BulkAcc :=
  if f.failGetPR prID then { acc with errors := acc.errors + 1 } else
  match prGet acc.st prID with
  | .error _ => { acc with errors := acc.errors + 1 }
  | .ok pr =>
    if f.failGetReviewers prID then { acc with errors := acc.errors + 1 } else
    let currentReviewers := getReviewers acc.st prID
    if f.failGetAuthor pr.authorID then { acc with errors := acc.errors + 1 } else
    match userGet acc.st pr.authorID with
    | .error _ => { acc with errors := acc.errors + 1 }
    | .ok author =>
      if f.failGetTeamMembers author.teamName then { acc with errors := acc.errors + 1 } else
      let teamMembers := getByTeam acc.st author.teamName
      let candidates := filterCandidates teamMembers pr.authorID currentReviewers
      if candidates.isEmpty then
        if f.failRemoveReviewer prID then { acc with errors := acc.errors + 1 } else
        match removeReviewer acc.st prID userID with
        | .error _ => { acc with errors := acc.errors + 1 }
        | .ok st1 => { st := st1, reassigned := acc.reassigned + 1, errors := acc.errors }
      else
        let newReviewer := selectRandomCandidate candidates (rnd userID prID)
        if f.failReassign prID then { acc with errors := acc.errors + 1 } else
        match reassignReviewerRepo acc.st prID userID newReviewer with
        | .error _ => { acc with errors := acc.errors + 1 }
        | .ok st1 => { st := st1, reassigned := acc.reassigned + 1, errors := acc.errors }

/-- BulkDeactivateTeam's outer loop body for one deactivated user:
enumerate the user's open PRs and process each. -/
def processUser (f : Faults) (rnd : String → String → Nat)
    (acc : BulkAcc) (userID : String) : BulkAcc :=
  if f.failGetOpenPRs userID then { acc with errors := acc.errors + 1 } else
  let openPRs := getOpenByReviewer acc.st userID
  openPRs.foldl (processPR f rnd userID) acc

/-- service.BulkDeactivateResult. -/
structure BulkDeactivateResult where
  deactivatedUsers : List String
  reassignedPRs : Nat
  errors : Nat
deriving Repr, DecidableEq

/-- StatsService.BulkDeactivateTeam: NotFound when the team has no
members at all; success with empty result when none is active; else
atomically deactivate the active members and run the best-effort
reassignment loop over every (deactivated user, open PR) pair. -/
def bulkDeactivateTeam (st : Store) (teamName : String)
    (rnd : String → String → Nat) (f : Faults) :
    Except DomainErr BulkDeactivateResult × Store :=
  let allMembers := getByTeam st teamName
  if allMembers.isEmpty then (.error .notFound, st)
  else
    let toDeactivate := (allMembers.filter User.isActive).map User.userID
    if toDeactivate.isEmpty then
      (.ok { deactivatedUsers := [], reassignedPRs := 0, errors := 0 }, st)
    else
      let deactivated := bulkDeactivateByTeam st teamName
      let acc := deactivated.2.foldl (processUser f rnd) ⟨deactivated.1, 0, 0⟩
      (.ok { deactivatedUsers := deactivated.2, reassignedPRs := acc.reassigned,
             errors := acc.errors }, acc.st)

/-! ## Helper lemmas -/

theorem contains_true_iff (l : List String) (a : String) :
    l.contains a = true ↔ a ∈ l := by
  simp [List.contains, List.elem_iff]

theorem contains_false_iff (l : List String) (a : String) :
    l.contains a = false ↔ a ∉ l := by
  rw [← Bool.not_eq_true, not_iff_not]
  exact contains_true_iff l a

theorem prGet_eq_notFound (st : Store) (prID : String)
    (h : ∀ p ∈ st.prs, p.pullRequestID ≠ prID) :
    prGet st prID = .error .notFound := by
  unfold prGet
  rw [List.find?_eq_none.mpr]
  intro p hp
  simpa using h p hp

theorem userGet_eq_notFound (st : Store) (userID : String)
    (h : ∀ u ∈ st.users, u.userID ≠ userID) :
    userGet st userID = .error .notFound := by
  unfold userGet
  rw [List.find?_eq_none.mpr]
  intro u hu
  simpa using h u hu

theorem prGet_setNow (st : Store) (prID : String) (t : Nat) :
    prGet { st with now := t } prID = prGet st prID := rfl

theorem find?_map_update (l : List PullRequest) (prID : String)
    (pr p2 : PullRequest)
    (h : l.find? (fun p => p.pullRequestID == prID) = some pr)
    (hid : p2.pullRequestID = prID) :
    (l.map (fun p => if p.pullRequestID == p2.pullRequestID then p2 else p)).find?
      (fun p => p.pullRequestID == prID) = some p2 := by
  induction l with
  | nil => simp at h
  | cons x xs ih =>
    by_cases hx : x.pullRequestID = prID
    · have hcond : (x.pullRequestID == p2.pullRequestID) = true := by
        simp [hx, hid]
      simp only [List.map_cons, hcond, if_true]
      rw [List.find?_cons_of_pos]
      simp [hid]
    · have h2 : xs.find? (fun p => p.pullRequestID == prID) = some pr := by
        rwa [List.find?_cons_of_neg _ (by simp [hx])] at h
      have hcond : (x.pullRequestID == p2.pullRequestID) = false := by
        simp [hid, hx]
      simp only [List.map_cons, hcond, if_false]
      rw [List.find?_cons_of_neg _ (by simp [hx])]
      exact ih h2

theorem prGet_updatePR (st : Store) (prID : String) (pr p2 : PullRequest)
    (h : prGet st prID = .ok pr) (hid : p2.pullRequestID = prID) :
    prGet (updatePR st p2) prID = .ok p2 := by
  unfold prGet at h ⊢
  unfold updatePR
  cases hf : st.prs.find? (fun p => p.pullRequestID == prID) with
  | none => rw [hf] at h; exact absurd h (by simp)
  | some q =>
    simp only
    rw [find?_map_update st.prs prID q p2 hf hid]

theorem prGet_id (st : Store) (prID : String) (pr : PullRequest)
    (h : prGet st prID = .ok pr) : pr.pullRequestID = prID := by
  unfold prGet at h
  cases hf : st.prs.find? (fun p => p.pullRequestID == prID) with
  | none => rw [hf] at h; simp at h
  | some q =>
    rw [hf] at h
    have hq := List.find?_some hf
    cases h
    simpa using hq

/-! ## Concrete stores used by counterexamples and witnesses -/

/-- Author "a" in team "ta" with an eligible active teammate "c"; the
old reviewer "b" is the sole member of team "tb"; one OPEN PR authored
by "a" with reviewer "b". -/
def exC1St : Store :=
  { users := [⟨"a", "A", "ta", true⟩, ⟨"b", "B", "tb", true⟩, ⟨"c", "C", "ta", true⟩],
    prs := [⟨"pr1", "T", "a", PRStatusOpen, ["b"], some 0, none⟩],
    now := 5 }

/-- The PR stored in `exC1St`. -/
def exC1PR : PullRequest := ⟨"pr1", "T", "a", PRStatusOpen, ["b"], some 0, none⟩

/-- The user record of the old reviewer "b" in `exC1St`. -/
def exC1OldReviewer : User := ⟨"b", "B", "tb", true⟩

/-- Same directory as `exC1St` but the PR is already MERGED. -/
def exMergedSt : Store :=
  { users := [⟨"a", "A", "ta", true⟩, ⟨"b", "B", "tb", true⟩],
    prs := [⟨"pr1", "T", "a", PRStatusMerged, ["b"], some 0, some 3⟩],
    now := 5 }

/-- The merged PR stored in `exMergedSt`. -/
def exMergedPR : PullRequest := ⟨"pr1", "T", "a", PRStatusMerged, ["b"], some 0, some 3⟩

/-! ## C1 -/

/-- C1 (counterexample): in `exC1St` the PR is OPEN with assigned
reviewer "b"; the old reviewer's team "tb" has zero eligible candidates
while the author's different team "ta" has the eligible active candidate
"c" — yet ReassignReviewer returns NoCandidate and leaves the store
unchanged, so no fallback to the author's team happens. -/
theorem reassignReviewer_fallback_counterexample :
    prGet exC1St "pr1" = .ok exC1PR ∧
    exC1PR.status = PRStatusOpen ∧
    "b" ∈ exC1PR.assignedReviewers ∧
    userGet exC1St "b" = .ok exC1OldReviewer ∧
    exC1OldReviewer.teamName = "tb" ∧
    userGet exC1St "a" = .ok ⟨"a", "A", "ta", true⟩ ∧
    filterCandidates (getByTeam exC1St "ta") "a" exC1PR.assignedReviewers = ["c"] ∧
    reassignReviewer exC1St "pr1" "b" 0 = (.error .noCandidate, exC1St) := by
  decide

/-- C1 (amended): ReassignReviewer searches only the old reviewer's own
team; whenever that team has zero eligible candidates it fails with
NoCandidate and leaves the store unchanged, regardless of candidates in
the author's team or elsewhere — there is no fallback tier. -/
theorem reassignReviewer_no_fallback (st : Store) (prID oldID : String) (pick : Nat)
    (pr : PullRequest) (oldReviewer : User)
    (hpr : prGet st prID = .ok pr)
    (hopen : pr.status ≠ PRStatusMerged)
    (hassigned : oldID ∈ pr.assignedReviewers)
    (hold : userGet st oldID = .ok oldReviewer)
    (hempty : ((getByTeam st oldReviewer.teamName).filter
      (fun m => m.isActive &&
        !((pr.authorID :: pr.assignedReviewers).contains m.userID))).map User.userID = []) :
    reassignReviewer st prID oldID pick = (.error .noCandidate, st) := by
  have hmerged : (pr.status == PRStatusMerged) = false := by
    simp [hopen]
  have hcont : pr.assignedReviewers.contains oldID = true :=
    (contains_true_iff _ _).mpr hassigned
  unfold reassignReviewer
  rw [hpr]
  simp only [hmerged, Bool.false_eq_true, if_false, hcont, Bool.not_true, hold]
  rw [dif_pos (by rw [hempty]; rfl)]

/-- Witness for `reassignReviewer_no_fallback` at the concrete store. -/
theorem reassignReviewer_no_fallback_witness :
    reassignReviewer exC1St "pr1" "b" 3 = (.error .noCandidate, exC1St) :=
  reassignReviewer_no_fallback exC1St "pr1" "b" 3 exC1PR exC1OldReviewer
    (by decide) (by decide) (by decide) (by decide) (by decide)

/-! ## C4 -/

/-- C4: ReassignReviewer performs its state checks in order — a missing
PR gives NotFound; an existing MERGED PR gives PRMerged regardless of the
reviewer set; an OPEN PR without the old reviewer among its reviewers
gives NotAssigned — and every failure returns the store unchanged. -/
theorem reassignReviewer_state_check_order (st : Store) (prID oldID : String) (pick : Nat) :
    ((∀ p ∈ st.prs, p.pullRequestID ≠ prID) →
      reassignReviewer st prID oldID pick = (.error .notFound, st)) ∧
    (∀ pr, prGet st prID = .ok pr → pr.status = PRStatusMerged →
      reassignReviewer st prID oldID pick = (.error .prMerged, st)) ∧
    (∀ pr, prGet st prID = .ok pr → pr.status ≠ PRStatusMerged →
      oldID ∉ pr.assignedReviewers →
      reassignReviewer st prID oldID pick = (.error .notAssigned, st)) := by
  refine ⟨?_, ?_, ?_⟩
  · intro h
    unfold reassignReviewer
    rw [prGet_eq_notFound st prID h]
  · intro pr hpr hmerged
    unfold reassignReviewer
    rw [hpr]
    simp [hmerged]
  · intro pr hpr hopen hnot
    have hm : (pr.status == PRStatusMerged) = false := by simp [hopen]
    have hc : pr.assignedReviewers.contains oldID = false :=
      (contains_false_iff _ _).mpr hnot
    unfold reassignReviewer
    rw [hpr]
    dsimp only
    rw [if_neg (by rw [hm]; exact Bool.false_ne_true), if_pos (by rw [hc]; rfl)]

/-- Witness for `reassignReviewer_state_check_order` at concrete stores. -/
theorem reassignReviewer_state_check_order_witness :
    reassignReviewer exC1St "nope" "b" 0 = (.error .notFound, exC1St) ∧
    reassignReviewer exMergedSt "pr1" "b" 0 = (.error .prMerged, exMergedSt) ∧
    reassignReviewer exC1St "pr1" "zz" 0 = (.error .notAssigned, exC1St) :=
  ⟨(reassignReviewer_state_check_order exC1St "nope" "b" 0).1 (by decide),
   (reassignReviewer_state_check_order exMergedSt "pr1" "b" 0).2.1 exMergedPR
     (by decide) (by decide),
   (reassignReviewer_state_check_order exC1St "pr1" "zz" 0).2.2 exC1PR
     (by decide) (by decide) (by decide)⟩

/-! ## C7 -/

/-- C7: merge is idempotent — on an existing OPEN PR the first call
transitions it to MERGED stamping the current clock, and a second call,
even at a later clock `t2`, succeeds and returns the identical PR
(status, reviewer set, merged timestamp) with the store unchanged. -/
theorem mergePullRequest_idempotent (st : Store) (prID : String) (pr : PullRequest)
    (t2 : Nat) (hpr : prGet st prID = .ok pr) (hopen : pr.status = PRStatusOpen) :
    ∃ stOut prM,
      mergePullRequest st prID = (.ok prM, stOut) ∧
      prM.status = PRStatusMerged ∧
      prM.mergedAt = some st.now ∧
      prM.assignedReviewers = pr.assignedReviewers ∧
      mergePullRequest { stOut with now := t2 } prID =
        (.ok prM, { stOut with now := t2 }) := by
  have hm : (pr.status == PRStatusMerged) = false := by
    simp [hopen, PRStatusOpen, PRStatusMerged]
  refine ⟨updatePR st { pr with status := PRStatusMerged, mergedAt := some st.now },
          { pr with status := PRStatusMerged, mergedAt := some st.now }, ?_, rfl, rfl, rfl, ?_⟩
  · unfold mergePullRequest prMerge
    rw [hpr]
    simp [hm]
  · have hget2 : prGet (updatePR st { pr with status := PRStatusMerged, mergedAt := some st.now })
        prID = .ok { pr with status := PRStatusMerged, mergedAt := some st.now } :=
      prGet_updatePR st prID pr _ hpr (prGet_id st prID pr hpr)
    unfold mergePullRequest prMerge
    rw [prGet_setNow, hget2]
    simp [PRStatusMerged]

/-- Witness for `mergePullRequest_idempotent` at the concrete store. -/
theorem mergePullRequest_idempotent_witness :
    ∃ stOut prM,
      mergePullRequest exC1St "pr1" = (.ok prM, stOut) ∧
      prM.status = PRStatusMerged ∧
      prM.mergedAt = some exC1St.now ∧
      prM.assignedReviewers = exC1PR.assignedReviewers ∧
      mergePullRequest { stOut with now := 7 } "pr1" =
        (.ok prM, { stOut with now := 7 }) :=
  mergePullRequest_idempotent exC1St "pr1" exC1PR 7 (by decide) (by decide)

/-! ## C10 -/

/-- C10: GetUserReviews on a user id that resolves to no existing user
succeeds, returning the requested id with an empty PR list and leaving
the store unchanged. -/
theorem getUserReviews_unknown_user (st : Store) (userID : String)
    (h : ∀ u ∈ st.users, u.userID ≠ userID) :
    getUserReviews st userID = (.ok { userID := userID, pullRequests := [] }, st) := by
  unfold getUserReviews
  rw [userGet_eq_notFound st userID h]
  simp

/-- Witness for `getUserReviews_unknown_user` at the concrete store. -/
theorem getUserReviews_unknown_user_witness :
    getUserReviews exC1St "zzz" = (.ok { userID := "zzz", pullRequests := [] }, exC1St) :=
  getUserReviews_unknown_user exC1St "zzz" (by decide)

/-! ## Helper lemmas about replaceFirst and the reassignment candidates -/

theorem replaceFirst_split (l : List String) (oldID newID : String) (h : oldID ∈ l) :
    ∃ l1 l2, l = l1 ++ oldID :: l2 ∧ oldID ∉ l1 ∧
      replaceFirst l oldID newID = l1 ++ newID :: l2 := by
  induction l with
  | nil => simp at h
  | cons x xs ih =>
    by_cases hx : x = oldID
    · exact ⟨[], xs, by simp [hx], by simp, by simp [replaceFirst, hx]⟩
    · have hmem : oldID ∈ xs := by
        rcases List.mem_cons.mp h with h1 | h1
        · exact absurd h1.symm hx
        · exact h1
      obtain ⟨l1, l2, hsplit, hnot, heq⟩ := ih hmem
      refine ⟨x :: l1, l2, by simp [hsplit], ?_, ?_⟩
      · intro hmem2
        rcases List.mem_cons.mp hmem2 with h2 | h2
        · exact hx h2.symm
        · exact hnot h2
      · simp only [replaceFirst]
        rw [if_neg (by simp [hx]), heq]
        simp

theorem not_mem_replaceFirst (l : List String) (oldID newID : String)
    (hnd : l.Nodup) (hne : newID ≠ oldID) : oldID ∉ replaceFirst l oldID newID := by
  induction l with
  | nil => simp [replaceFirst]
  | cons x xs ih =>
    obtain ⟨hx, hxs⟩ := List.nodup_cons.mp hnd
    by_cases hxe : x = oldID
    · simp only [replaceFirst]
      rw [if_pos (by simp [hxe])]
      intro hmem
      rcases List.mem_cons.mp hmem with h2 | h2
      · exact hne h2.symm
      · exact hx (hxe ▸ h2)
    · simp only [replaceFirst]
      rw [if_neg (by simp [hxe])]
      intro hmem
      rcases List.mem_cons.mp hmem with h2 | h2
      · exact hxe h2.symm
      · exact ih hxs h2

theorem mem_candidates_props (st : Store) (team authorID : String)
    (reviewers : List String) (r : String)
    (hr : r ∈ (List.map User.userID (List.filter
      (fun m => m.isActive && !((authorID :: reviewers).contains m.userID))
      (getByTeam st team)))) :
    (∃ u, u ∈ st.users ∧ u.userID = r ∧ u.isActive = true) ∧
    r ≠ authorID ∧ r ∉ reviewers := by
  obtain ⟨u, hu, huid⟩ := List.mem_map.mp hr
  obtain ⟨humem, hpred⟩ := List.mem_filter.mp hu
  simp only [Bool.and_eq_true] at hpred
  obtain ⟨hact, hncont⟩ := hpred
  have hcont : ((authorID :: reviewers).contains u.userID) = false := by
    cases hbc : (authorID :: reviewers).contains u.userID
    · rfl
    · rw [hbc] at hncont; simp at hncont
  have hnotmem : u.userID ∉ authorID :: reviewers := (contains_false_iff _ _).mp hcont
  have husers : u ∈ st.users := by
    unfold getByTeam at humem
    exact (List.mem_filter.mp humem).1
  subst huid
  refine ⟨⟨u, husers, rfl, hact⟩, ?_, ?_⟩
  · intro he
    exact hnotmem (he ▸ List.mem_cons_self _ _)
  · intro hmem2
    exact hnotmem (List.mem_cons_of_mem _ hmem2)

theorem reassignReviewer_ok_spec (st : Store) (prID oldID : String) (pick : Nat)
    (pr prOut : PullRequest) (newR : String) (stOut : Store)
    (hpr : prGet st prID = .ok pr)
    (h : reassignReviewer st prID oldID pick = (.ok (prOut, newR), stOut)) :
    oldID ∈ pr.assignedReviewers ∧
    (∃ u, u ∈ st.users ∧ u.userID = newR ∧ u.isActive = true) ∧
    newR ≠ pr.authorID ∧ newR ∉ pr.assignedReviewers ∧
    prOut.assignedReviewers = replaceFirst pr.assignedReviewers oldID newR := by
  unfold reassignReviewer at h
  rw [hpr] at h
  dsimp only at h
  by_cases hm : (pr.status == PRStatusMerged) = true
  · rw [if_pos hm] at h; simp at h
  · rw [if_neg hm] at h
    by_cases hc : (!pr.assignedReviewers.contains oldID) = true
    · rw [if_pos hc] at h; simp at h
    · rw [if_neg hc] at h
      have hcont : oldID ∈ pr.assignedReviewers := by
        apply (contains_true_iff _ _).mp
        cases hb : pr.assignedReviewers.contains oldID with
        | false => exact absurd (by rw [hb]; rfl) hc
        | true => rfl
      cases hu : userGet st oldID with
      | error e => rw [hu] at h; simp at h
      | ok oldReviewer =>
        rw [hu] at h
        dsimp only at h
        by_cases hlen : (List.map User.userID (List.filter
            (fun m => m.isActive &&
              !((pr.authorID :: pr.assignedReviewers).contains m.userID))
            (getByTeam st oldReviewer.teamName))).length = 0
        · rw [dif_pos hlen] at h; simp at h
        · rw [dif_neg hlen] at h
          cases hrepo : reassignReviewerRepo st prID oldID
              ((List.map User.userID (List.filter
                (fun m => m.isActive &&
                  !((pr.authorID :: pr.assignedReviewers).contains m.userID))
                (getByTeam st oldReviewer.teamName))).get
                ⟨pick % _, Nat.mod_lt _ (Nat.pos_of_ne_zero hlen)⟩) with
          | error e => rw [hrepo] at h; simp at h
          | ok st1 =>
            rw [hrepo] at h
            simp only [Prod.mk.injEq, Except.ok.injEq] at h
            obtain ⟨⟨hprOut, hnewR⟩, hstOut⟩ := h
            have hmemc : newR ∈ (List.map User.userID (List.filter
                (fun m => m.isActive &&
                  !((pr.authorID :: pr.assignedReviewers).contains m.userID))
                (getByTeam st oldReviewer.teamName))) := by
              rw [← hnewR]
              exact List.get_mem _ _ _
            obtain ⟨hexists, hneauthor, hnemem⟩ :=
              mem_candidates_props st oldReviewer.teamName pr.authorID
                pr.assignedReviewers newR hmemc
            refine ⟨hcont, hexists, hneauthor, hnemem, ?_⟩
            rw [← hprOut, ← hnewR]

/-! ## C5 and C9: reassignment success postconditions -/

/-- Team "tb" has two active members "b" and "d"; one OPEN PR authored
by "a" (team "ta") with reviewer "b". -/
def exSwapSt : Store :=
  { users := [⟨"a", "A", "ta", true⟩, ⟨"b", "B", "tb", true⟩, ⟨"d", "D", "tb", true⟩],
    prs := [⟨"pr1", "T", "a", PRStatusOpen, ["b"], some 0, none⟩],
    now := 5 }

/-- The PR stored in `exSwapSt`. -/
def exSwapPR : PullRequest := ⟨"pr1", "T", "a", PRStatusOpen, ["b"], some 0, none⟩

/-- The PR returned after reassigning "b" on `exSwapSt` (swapped to "d"). -/
def exSwapOutPR : PullRequest := ⟨"pr1", "T", "a", PRStatusOpen, ["d"], some 0, none⟩

/-- The store after reassigning "b" on `exSwapSt`. -/
def exSwapOutSt : Store :=
  { users := [⟨"a", "A", "ta", true⟩, ⟨"b", "B", "tb", true⟩, ⟨"d", "D", "tb", true⟩],
    prs := [⟨"pr1", "T", "a", PRStatusOpen, ["d"], some 0, none⟩],
    now := 5 }

/-- C5: every successful ReassignReviewer call returns a PR whose
reviewer set no longer contains the old reviewer, and a new reviewer who
is an active stored user, differs from the PR author, and differs from
every reviewer that was on the PR before the call. -/
theorem reassignReviewer_success_postconditions (st : Store) (prID oldID : String)
    (pick : Nat) (pr prOut : PullRequest) (newR : String) (stOut : Store)
    (hpr : prGet st prID = .ok pr)
    (hnd : pr.assignedReviewers.Nodup)
    (h : reassignReviewer st prID oldID pick = (.ok (prOut, newR), stOut)) :
    oldID ∉ prOut.assignedReviewers ∧
    (∃ u, u ∈ st.users ∧ u.userID = newR ∧ u.isActive = true) ∧
    newR ≠ pr.authorID ∧
    ∀ r ∈ pr.assignedReviewers, newR ≠ r := by
  obtain ⟨hold, hex, hnea, hnm, hrepl⟩ :=
    reassignReviewer_ok_spec st prID oldID pick pr prOut newR stOut hpr h
  refine ⟨?_, hex, hnea, ?_⟩
  · rw [hrepl]
    exact not_mem_replaceFirst _ _ _ hnd (fun he => hnm (by rw [he]; exact hold))
  · intro r hr he
    exact hnm (by rw [he]; exact hr)

/-- Witness for `reassignReviewer_success_postconditions`. -/
theorem reassignReviewer_success_postconditions_witness :
    "b" ∉ exSwapOutPR.assignedReviewers ∧
    (∃ u, u ∈ exSwapSt.users ∧ u.userID = "d" ∧ u.isActive = true) ∧
    "d" ≠ exSwapPR.authorID ∧
    ∀ r ∈ exSwapPR.assignedReviewers, "d" ≠ r :=
  reassignReviewer_success_postconditions exSwapSt "pr1" "b" 0 exSwapPR exSwapOutPR "d"
    exSwapOutSt (by decide) (by decide) (by decide)

/-- C9: on every successful ReassignReviewer call the returned reviewer
list keeps its length, the new reviewer sits exactly at the (first) list
position the old reviewer held, and every other entry is unchanged in
value and position: the old list splits as l1 ++ old :: l2 with old not
in l1, and the new list is l1 ++ new :: l2. -/
theorem reassignReviewer_frame (st : Store) (prID oldID : String) (pick : Nat)
    (pr prOut : PullRequest) (newR : String) (stOut : Store)
    (hpr : prGet st prID = .ok pr)
    (h : reassignReviewer st prID oldID pick = (.ok (prOut, newR), stOut)) :
    prOut.assignedReviewers.length = pr.assignedReviewers.length ∧
    ∃ l1 l2, pr.assignedReviewers = l1 ++ oldID :: l2 ∧ oldID ∉ l1 ∧
      prOut.assignedReviewers = l1 ++ newR :: l2 := by
  obtain ⟨hold, -, -, -, hrepl⟩ :=
    reassignReviewer_ok_spec st prID oldID pick pr prOut newR stOut hpr h
  obtain ⟨l1, l2, hsplit, hnot1, heq⟩ :=
    replaceFirst_split pr.assignedReviewers oldID newR hold
  refine ⟨?_, l1, l2, hsplit, hnot1, by rw [hrepl, heq]⟩
  rw [hrepl, heq, hsplit]
  simp

/-- Witness for `reassignReviewer_frame`. -/
theorem reassignReviewer_frame_witness :
    exSwapOutPR.assignedReviewers.length = exSwapPR.assignedReviewers.length ∧
    ∃ l1 l2, exSwapPR.assignedReviewers = l1 ++ "b" :: l2 ∧ "b" ∉ l1 ∧
      exSwapOutPR.assignedReviewers = l1 ++ "d" :: l2 :=
  reassignReviewer_frame exSwapSt "pr1" "b" 0 exSwapPR exSwapOutPR "d" exSwapOutSt
    (by decide) (by decide)

/-! ## C6: PR creation reviewer policy -/

theorem mem_of_swapAt (l : List String) (i j : Nat) (x : String)
    (h : x ∈ swapAt l i j) : x ∈ l := by
  unfold swapAt at h
  cases hi : l.get? i with
  | none =>
    cases hj : l.get? j with
    | none => rw [hi, hj] at h; exact h
    | some b => rw [hi, hj] at h; exact h
  | some a =>
    cases hj : l.get? j with
    | none => rw [hi, hj] at h; exact h
    | some b =>
      rw [hi, hj] at h
      dsimp only at h
      rcases List.mem_or_eq_of_mem_set h with h2 | h2
      · rcases List.mem_or_eq_of_mem_set h2 with h3 | h3
        · exact h3
        · subst h3; exact List.get?_mem hj
      · subst h2; exact List.get?_mem hi

theorem mem_of_fisherYatesFrom (rnd : Nat → Nat) (n : Nat) (l : List String) (x : String)
    (h : x ∈ fisherYatesFrom rnd n l) : x ∈ l := by
  induction n generalizing l with
  | zero => exact h
  | succ i ih =>
    exact mem_of_swapAt _ _ _ x (ih (swapAt l (i + 1) (rnd (i + 1) % (i + 2))) h)

theorem mem_of_shuffle (rnd : Nat → Nat) (l : List String) (x : String)
    (h : x ∈ shuffle rnd l) : x ∈ l :=
  mem_of_fisherYatesFrom rnd _ l x h

theorem mem_selectCandidates (tm : List User) (authorID r : String)
    (hr : r ∈ (tm.filter (fun m => m.isActive && m.userID != authorID)).map User.userID) :
    ∃ u, u ∈ tm ∧ u.userID = r ∧ u.isActive = true ∧ u.userID ≠ authorID := by
  obtain ⟨u, hu, huid⟩ := List.mem_map.mp hr
  obtain ⟨humem, hpred⟩ := List.mem_filter.mp hu
  simp only [Bool.and_eq_true, bne_iff_ne] at hpred
  exact ⟨u, humem, huid, hpred.1, hpred.2⟩

theorem selectReviewers_spec (teamMembers : List User) (authorID : String)
    (maxCount : Nat) (rnd : Nat → Nat) :
    (selectReviewers teamMembers authorID maxCount rnd).length ≤ maxCount ∧
    ∀ r ∈ selectReviewers teamMembers authorID maxCount rnd,
      ∃ u, u ∈ teamMembers ∧ u.userID = r ∧ u.isActive = true ∧ u.userID ≠ authorID := by
  unfold selectReviewers
  dsimp only
  by_cases hlen : ((teamMembers.filter
      (fun m => m.isActive && m.userID != authorID)).map User.userID).length ≤ maxCount
  · rw [if_pos hlen]
    exact ⟨hlen, fun r hr => mem_selectCandidates teamMembers authorID r hr⟩
  · rw [if_neg hlen]
    constructor
    · rw [List.length_take]
      exact min_le_left _ _
    · intro r hr
      exact mem_selectCandidates teamMembers authorID r
        (mem_of_shuffle rnd _ r (List.mem_of_mem_take hr))

theorem getByTeam_setPrs (st : Store) (l : List PullRequest) (t : String) :
    getByTeam { st with prs := l } t = getByTeam st t := rfl

/-- C6: every successful CreatePullRequest returns a PR with at most 2
assigned reviewers, never including the author, all drawn from the
author's team and active at assignment time; an empty selection is not
an error — the PR is returned with an empty reviewer set (the reviewer
set always equals the selector's output). -/
theorem createPullRequest_reviewer_policy (st : Store) (prID prName authorID : String)
    (rnd : Nat → Nat) (author : User)
    (hnew : prExistsIn st prID = false)
    (hauthor : userGet st authorID = .ok author) :
    ∃ prOut stOut, createPullRequest st prID prName authorID rnd = (.ok prOut, stOut) ∧
      prOut.assignedReviewers =
        selectReviewers (getByTeam st author.teamName) authorID 2 rnd ∧
      prOut.assignedReviewers.length ≤ 2 ∧
      authorID ∉ prOut.assignedReviewers ∧
      (∀ r ∈ prOut.assignedReviewers,
        ∃ u, u ∈ st.users ∧ u.userID = r ∧ u.teamName = author.teamName ∧
          u.isActive = true) := by
  have hcreate : prCreate st
      { pullRequestID := prID, pullRequestName := prName, authorID := authorID,
        status := PRStatusOpen, assignedReviewers := [], createdAt := some st.now } =
      .ok { st with prs := st.prs ++
        [{ pullRequestID := prID, pullRequestName := prName, authorID := authorID,
           status := PRStatusOpen, assignedReviewers := [], createdAt := some st.now }] } := by
    unfold prCreate
    dsimp only
    rw [if_neg (by rw [hnew]; exact Bool.false_ne_true)]
  obtain ⟨hlen, hmem⟩ := selectReviewers_spec (getByTeam st author.teamName) authorID 2 rnd
  have hmem2 : ∀ r ∈ selectReviewers (getByTeam st author.teamName) authorID 2 rnd,
      ∃ u, u ∈ st.users ∧ u.userID = r ∧ u.teamName = author.teamName ∧
        u.isActive = true := by
    intro r hr
    obtain ⟨u, hu, huid, hact, -⟩ := hmem r hr
    have := List.mem_filter.mp hu
    exact ⟨u, this.1, huid, by simpa using this.2, hact⟩
  have hnotin : authorID ∉ selectReviewers (getByTeam st author.teamName) authorID 2 rnd := by
    intro hin
    obtain ⟨u, -, huid, -, hneq⟩ := hmem authorID hin
    exact hneq huid
  unfold createPullRequest
  rw [if_neg (by rw [hnew]; exact Bool.false_ne_true), hauthor]
  dsimp only
  rw [hcreate]
  dsimp only
  rw [getByTeam_setPrs]
  by_cases hempty : (selectReviewers (getByTeam st author.teamName) authorID 2 rnd).isEmpty
  · rw [if_pos hempty]
    have hnil := List.isEmpty_iff.mp hempty
    refine ⟨_, _, rfl, by rw [hnil], by simp, by simp, by simp⟩
  · rw [if_neg hempty]
    exact ⟨_, _, rfl, rfl, hlen, hnotin, hmem2⟩

/-- Witness for `createPullRequest_reviewer_policy`. -/
theorem createPullRequest_reviewer_policy_witness :
    ∃ prOut stOut, createPullRequest exSwapSt "pr2" "N" "b" (fun _ => 0) = (.ok prOut, stOut) ∧
      prOut.assignedReviewers =
        selectReviewers (getByTeam exSwapSt (User.teamName ⟨"b", "B", "tb", true⟩)) "b" 2
          (fun _ => 0) ∧
      prOut.assignedReviewers.length ≤ 2 ∧
      "b" ∉ prOut.assignedReviewers ∧
      (∀ r ∈ prOut.assignedReviewers,
        ∃ u, u ∈ exSwapSt.users ∧ u.userID = r ∧
          u.teamName = User.teamName ⟨"b", "B", "tb", true⟩ ∧ u.isActive = true) :=
  createPullRequest_reviewer_policy exSwapSt "pr2" "N" "b" (fun _ => 0)
    ⟨"b", "B", "tb", true⟩ (by decide) (by decide)

/-! ## Bulk deactivation: helper lemmas -/

theorem prGet_find (st : Store) (prID : String) (pr : PullRequest)
    (h : prGet st prID = .ok pr) :
    st.prs.find? (fun p => p.pullRequestID == prID) = some pr := by
  unfold prGet at h
  cases hf : st.prs.find? (fun p => p.pullRequestID == prID) with
  | none => rw [hf] at h; simp at h
  | some q =>
    rw [hf] at h
    simp only [Except.ok.injEq] at h
    rw [h]

theorem getReviewers_eq (st : Store) (prID : String) (pr : PullRequest)
    (h : prGet st prID = .ok pr) :
    getReviewers st prID = pr.assignedReviewers := by
  unfold getReviewers
  rw [prGet_find st prID pr h]

theorem removeReviewer_ok (st : Store) (prID userID : String) (pr : PullRequest)
    (h : prGet st prID = .ok pr) (hmem : userID ∈ pr.assignedReviewers) :
    removeReviewer st prID userID =
      .ok (updatePR st { pr with assignedReviewers :=
        pr.assignedReviewers.erase userID }) := by
  unfold removeReviewer
  rw [prGet_find st prID pr h]
  dsimp only
  rw [if_pos ((contains_true_iff _ _).mpr hmem)]

theorem reassignReviewerRepo_ok (st : Store) (prID oldID newID : String)
    (pr : PullRequest) (h : prGet st prID = .ok pr)
    (hmem : oldID ∈ pr.assignedReviewers) :
    reassignReviewerRepo st prID oldID newID =
      .ok (updatePR st { pr with assignedReviewers :=
        pr.assignedReviewers.erase oldID ++ [newID] }) := by
  unfold reassignReviewerRepo
  rw [prGet_find st prID pr h]
  dsimp only
  rw [if_pos ((contains_true_iff _ _).mpr hmem)]

theorem selectRandomCandidate_mem (candidates : List String) (pick : Nat)
    (h : candidates ≠ []) : selectRandomCandidate candidates pick ∈ candidates := by
  unfold selectRandomCandidate
  rw [dif_neg (fun h0 => h (List.length_eq_zero.mp h0))]
  exact List.get_mem _ _ _

theorem bulkDeactivateTeam_cases (st : Store) (team : String)
    (rnd : String → String → Nat) (f : Faults) :
    (getByTeam st team = [] ∧ bulkDeactivateTeam st team rnd f = (.error .notFound, st)) ∨
    (∃ res stOut, bulkDeactivateTeam st team rnd f = (.ok res, stOut)) := by
  unfold bulkDeactivateTeam
  dsimp only
  by_cases h1 : (getByTeam st team).isEmpty
  · left
    exact ⟨List.isEmpty_iff.mp h1, by rw [if_pos h1]⟩
  · right
    rw [if_neg h1]
    by_cases h2 : (((getByTeam st team).filter User.isActive).map User.userID).isEmpty
    · rw [if_pos h2]
      exact ⟨_, _, rfl⟩
    · rw [if_neg h2]
      exact ⟨_, _, rfl⟩

/-! ## C2: bulk deactivation searches a single tier -/

/-- C2/C3 counterexample base store: author "a" alone in team "ta";
reviewer "b" alone in team "tb"; active user "c" in a third team "tc";
one OPEN PR authored by "a" with reviewer "b". -/
def exBulkSt : Store :=
  { users := [⟨"a", "A", "ta", true⟩, ⟨"b", "B", "tb", true⟩, ⟨"c", "C", "tc", true⟩],
    prs := [⟨"pr1", "T", "a", PRStatusOpen, ["b"], some 0, none⟩],
    now := 5 }

/-- The store `exBulkSt` after the batch deactivation of team "tb". -/
def exBulkMidSt : Store :=
  { users := [⟨"a", "A", "ta", true⟩, ⟨"b", "B", "tb", false⟩, ⟨"c", "C", "tc", true⟩],
    prs := [⟨"pr1", "T", "a", PRStatusOpen, ["b"], some 0, none⟩],
    now := 5 }

/-- The store `exBulkSt` after the whole bulk deactivation of team "tb": "b" is
inactive and has been removed from the PR without replacement. -/
def exBulkOutSt : Store :=
  { users := [⟨"a", "A", "ta", true⟩, ⟨"b", "B", "tb", false⟩, ⟨"c", "C", "tc", true⟩],
    prs := [⟨"pr1", "T", "a", PRStatusOpen, [], some 0, none⟩],
    now := 5 }

/-- The PR stored in `exBulkSt` and `exBulkMidSt`. -/
def exBulkPR : PullRequest := ⟨"pr1", "T", "a", PRStatusOpen, ["b"], some 0, none⟩

/-- The loop accumulator at the start of the bulk run over `exBulkMidSt`. -/
def exBulkAcc : BulkAcc := ⟨exBulkMidSt, 0, 0⟩

/-- C2 (counterexample): deactivating team "tb" on `exBulkSt`, where the
deactivated team and the author's team "ta" have no eligible candidates
but team "tc" has the active user "c", removes reviewer "b" without
replacement — "c" is never chosen, so there is no third-tier search. -/
theorem bulkDeactivateTeam_fallback_counterexample :
    (∃ u, u ∈ exBulkSt.users ∧ u.userID = "c" ∧ u.teamName = "tc" ∧ u.isActive = true) ∧
    filterCandidates (getByTeam exBulkMidSt "ta") "a" exBulkPR.assignedReviewers = [] ∧
    bulkDeactivateTeam exBulkSt "tb" (fun _ _ => 0) noFaults =
      (.ok { deactivatedUsers := ["b"], reassignedPRs := 1, errors := 0 }, exBulkOutSt) ∧
    prGet exBulkOutSt "pr1" = .ok ⟨"pr1", "T", "a", PRStatusOpen, [], some 0, none⟩ := by
  decide

/-- C2 (amended): inside BulkDeactivateTeam the candidate search for a
(deactivated reviewer, open PR) pair consults exactly one pool — the PR
author's team, filtered by activity and the exclusion set. When that
pool is empty the reviewer is removed without replacement; otherwise the
replacement comes from that pool. No other team is ever searched. -/
theorem processPR_single_tier (rnd : String → String → Nat) (userID : String)
    (acc : BulkAcc) (prID : String) (pr : PullRequest) (author : User)
    (hpr : prGet acc.st prID = .ok pr)
    (hauthor : userGet acc.st pr.authorID = .ok author)
    (hmem : userID ∈ pr.assignedReviewers) :
    (filterCandidates (getByTeam acc.st author.teamName) pr.authorID
        pr.assignedReviewers = [] →
      processPR noFaults rnd userID acc prID =
        ⟨updatePR acc.st { pr with assignedReviewers := pr.assignedReviewers.erase userID },
         acc.reassigned + 1, acc.errors⟩) ∧
    (filterCandidates (getByTeam acc.st author.teamName) pr.authorID
        pr.assignedReviewers ≠ [] →
      ∃ newR, newR ∈ filterCandidates (getByTeam acc.st author.teamName) pr.authorID
          pr.assignedReviewers ∧
        processPR noFaults rnd userID acc prID =
          ⟨updatePR acc.st { pr with assignedReviewers := pr.assignedReviewers.erase userID ++ [newR] },
           acc.reassigned + 1, acc.errors⟩) := by
  have hrev := getReviewers_eq acc.st prID pr hpr
  constructor
  · intro hempty
    unfold processPR
    rw [if_neg (by simp [noFaults])]
    rw [hpr]
    dsimp only
    rw [if_neg (by simp [noFaults])]
    rw [hrev]
    rw [if_neg (by simp [noFaults])]
    rw [hauthor]
    dsimp only
    rw [if_neg (by simp [noFaults])]
    rw [if_pos (by rw [hempty]; rfl)]
    rw [if_neg (by simp [noFaults])]
    rw [removeReviewer_ok acc.st prID userID pr hpr hmem]
  · intro hne
    refine ⟨selectRandomCandidate
      (filterCandidates (getByTeam acc.st author.teamName) pr.authorID
        pr.assignedReviewers) (rnd userID prID),
      selectRandomCandidate_mem _ _ hne, ?_⟩
    unfold processPR
    rw [if_neg (by simp [noFaults])]
    rw [hpr]
    dsimp only
    rw [if_neg (by simp [noFaults])]
    rw [hrev]
    rw [if_neg (by simp [noFaults])]
    rw [hauthor]
    dsimp only
    rw [if_neg (by simp [noFaults])]
    rw [if_neg (fun hc => hne (List.isEmpty_iff.mp hc))]
    rw [if_neg (by simp [noFaults])]
    rw [reassignReviewerRepo_ok acc.st prID userID _ pr hpr hmem]

/-- Witness for `processPR_single_tier` on the concrete store (the
empty-pool branch: reviewer removed, counted as a success). -/
theorem processPR_single_tier_witness :
    processPR noFaults (fun _ _ => 0) "b" exBulkAcc "pr1" =
      ⟨updatePR exBulkAcc.st { exBulkPR with assignedReviewers := exBulkPR.assignedReviewers.erase "b" },
       exBulkAcc.reassigned + 1, exBulkAcc.errors⟩ :=
  (processPR_single_tier (fun _ _ => 0) "b" exBulkAcc "pr1" exBulkPR
    ⟨"a", "A", "ta", true⟩ (by decide) (by decide) (by decide)).1 (by decide)

/-! ## C3: zero candidates on the bulk path mean removal counted as success -/

/-- C3: when the candidate search of BulkDeactivateTeam yields zero
candidates for a (deactivated reviewer, open PR) pair, the reviewer is
removed from the PR without replacement, the reassigned counter is
incremented (the outcome counts as a success, the error counter is
untouched), and the bulk path never produces the NoCandidate error. -/
theorem bulk_noCandidate_removed_counted (rnd : String → String → Nat) (userID : String)
    (acc : BulkAcc) (prID : String) (pr : PullRequest) (author : User)
    (hpr : prGet acc.st prID = .ok pr)
    (hauthor : userGet acc.st pr.authorID = .ok author)
    (hmem : userID ∈ pr.assignedReviewers)
    (hnd : pr.assignedReviewers.Nodup)
    (hempty : filterCandidates (getByTeam acc.st author.teamName) pr.authorID
      pr.assignedReviewers = []) :
    (∃ st1, removeReviewer acc.st prID userID = .ok st1 ∧
      processPR noFaults rnd userID acc prID = ⟨st1, acc.reassigned + 1, acc.errors⟩ ∧
      userID ∉ getReviewers st1 prID) ∧
    (∀ st2 team rnd2 f, (bulkDeactivateTeam st2 team rnd2 f).1 ≠ .error .noCandidate) := by
  have hrev := getReviewers_eq acc.st prID pr hpr
  constructor
  · refine ⟨updatePR acc.st { pr with assignedReviewers := pr.assignedReviewers.erase userID },
      removeReviewer_ok acc.st prID userID pr hpr hmem, ?_, ?_⟩
    · unfold processPR
      rw [if_neg (by simp [noFaults])]
      rw [hpr]
      dsimp only
      rw [if_neg (by simp [noFaults])]
      rw [hrev]
      rw [if_neg (by simp [noFaults])]
      rw [hauthor]
      dsimp only
      rw [if_neg (by simp [noFaults])]
      rw [if_pos (by rw [hempty]; rfl)]
      rw [if_neg (by simp [noFaults])]
      rw [removeReviewer_ok acc.st prID userID pr hpr hmem]
    · have hget2 :
          prGet (updatePR acc.st { pr with assignedReviewers := pr.assignedReviewers.erase userID }) prID =
          .ok { pr with assignedReviewers := pr.assignedReviewers.erase userID } :=
        prGet_updatePR acc.st prID pr _ hpr (prGet_id acc.st prID pr hpr)
      rw [getReviewers_eq _ prID _ hget2]
      intro hin
      exact ((List.Nodup.mem_erase_iff hnd).mp hin).1 rfl
  · intro st2 team rnd2 f h
    rcases bulkDeactivateTeam_cases st2 team rnd2 f with ⟨-, heq⟩ | ⟨res, stOut, heq⟩
    · rw [heq] at h; simp at h
    · rw [heq] at h; simp at h

/-- Witness for `bulk_noCandidate_removed_counted`. -/
theorem bulk_noCandidate_removed_counted_witness :
    ∃ st1, removeReviewer exBulkAcc.st "pr1" "b" = .ok st1 ∧
      processPR noFaults (fun _ _ => 0) "b" exBulkAcc "pr1" =
        ⟨st1, exBulkAcc.reassigned + 1, exBulkAcc.errors⟩ ∧
      "b" ∉ getReviewers st1 "pr1" :=
  (bulk_noCandidate_removed_counted (fun _ _ => 0) "b" exBulkAcc "pr1" exBulkPR
    ⟨"a", "A", "ta", true⟩ (by decide) (by decide) (by decide) (by decide) (by decide)).1

/-! ## C8: bulk deactivation error policy -/

/-- A team whose only member is already inactive. -/
def exInactiveSt : Store :=
  { users := [⟨"b", "B", "tb", false⟩], prs := [], now := 0 }

/-- C8: BulkDeactivateTeam fails only when the team has zero members at
all (NotFound, store untouched); with members but none active it
succeeds with an empty deactivated list and zero counters; and whenever
the team has members the operation returns a success result for every
fault oracle — per-PR failures never abort the run. -/
theorem bulkDeactivateTeam_error_policy (st : Store) (team : String)
    (rnd : String → String → Nat) (f : Faults) :
    (getByTeam st team = [] → bulkDeactivateTeam st team rnd f = (.error .notFound, st)) ∧
    (getByTeam st team ≠ [] →
      ∃ res stOut, bulkDeactivateTeam st team rnd f = (.ok res, stOut)) ∧
    ((∀ u ∈ getByTeam st team, u.isActive = false) → getByTeam st team ≠ [] →
      bulkDeactivateTeam st team rnd f =
        (.ok { deactivatedUsers := [], reassignedPRs := 0, errors := 0 }, st)) := by
  refine ⟨?_, ?_, ?_⟩
  · intro h
    unfold bulkDeactivateTeam
    dsimp only
    rw [if_pos (List.isEmpty_iff.mpr h)]
  · intro hne
    rcases bulkDeactivateTeam_cases st team rnd f with ⟨hemp, -⟩ | ⟨res, stOut, heq⟩
    · exact absurd hemp hne
    · exact ⟨res, stOut, heq⟩
  · intro hall hne
    have hfilter : (getByTeam st team).filter User.isActive = [] :=
      List.filter_eq_nil_iff.mpr (fun u hu => by simp [hall u hu])
    unfold bulkDeactivateTeam
    dsimp only
    rw [if_neg (fun hc => hne (List.isEmpty_iff.mp hc))]
    rw [if_pos (by rw [hfilter]; rfl)]

/-- Witness for `bulkDeactivateTeam_error_policy` at concrete stores. -/
theorem bulkDeactivateTeam_error_policy_witness :
    bulkDeactivateTeam exBulkSt "zz" (fun _ _ => 0) noFaults =
      (.error .notFound, exBulkSt) ∧
    (∃ res stOut, bulkDeactivateTeam exBulkSt "tb" (fun _ _ => 0) noFaults =
      (.ok res, stOut)) ∧
    bulkDeactivateTeam exInactiveSt "tb" (fun _ _ => 0) noFaults =
      (.ok { deactivatedUsers := [], reassignedPRs := 0, errors := 0 }, exInactiveSt) :=
  ⟨(bulkDeactivateTeam_error_policy exBulkSt "zz" (fun _ _ => 0) noFaults).1 (by decide),
   (bulkDeactivateTeam_error_policy exBulkSt "tb" (fun _ _ => 0) noFaults).2.1 (by decide),
   (bulkDeactivateTeam_error_policy exInactiveSt "tb" (fun _ _ => 0) noFaults).2.2
     (by decide) (by decide)⟩
